import Mathlib

/-!
Verification development for the un10n testnet automation bot.

The repository's core (per its specification) is a worker-pool batch
scheduler (`core/workers/workerManager.js`, concatenated into
`core/faucet/captchaSolver.js`) and a durable per-wallet progress store
(`core/progress/progress.js`, which contains two variants: an
atomic-rename variant and a lock-file variant).  This file gives a
shallow embedding of those parts, of the quest services that feed the
scheduler (`core/quests/dailyInteraction.js`,
`core/quests/transferQuest.js`, and the cross-chain quest service in
`src/unnamed/part_008`), and of the static quest configuration
(`config/quests.js`), and proves properties about them.

Modelling conventions:
* JS objects whose keys matter are association lists `List (String × _)`
  in insertion order, matching JS object key order; `List.lookup` is JS
  property access (`undefined` when absent).
* A JS value that may be `null` is an `Option`; an object key that may
  be absent as well as `null` is modelled where the distinction matters
  (e.g. `jsNotNull`).
* Asynchronous functions that can throw are `Except String`-valued or
  return explicit state; a promise that may never settle is
  `Option`-valued, with `none` for "never resolves".
* Wall-clock time is modelled only where the code branches on it
  (the lock-polling loop); `lastUpdated` timestamps are not modelled.
-/
/-- One entry of the `dailyInteractions` sub-mapping of a progress
record: `{ lastInteraction: string | null, count: number }`
(`core/progress/progress.js`, `getDefaultProgressData`). -/
structure DailyEntry where
  lastInteraction : Option String
  count : Nat
deriving DecidableEq, Repr
/-- One entry of the `transfers` sub-mapping: `{ count: number }`. -/
structure TransferEntry where
  count : Nat
deriving DecidableEq, Repr
/-- One entry of the `crossChain` sub-mapping: `{ completed: boolean }`. -/
structure CrossEntry where
  completed : Bool
deriving DecidableEq, Repr
/-- A validated progress record as produced by `validateProgressData`:
after validation the four sub-mappings and `version` are always set
(the `lastUpdated` timestamp is not modelled).  Sub-mappings are
association lists in JS object key order. -/
structure ProgressData where
  version : Nat
  addresses : List (String × Option String)
  dailyInteractions : List (String × DailyEntry)
  transfers : List (String × TransferEntry)
  crossChain : List (String × CrossEntry)
deriving DecidableEq, Repr
/-- `getDefaultProgressData` from `core/progress/progress.js`
(lines 27-51): the default record, with all configured chains and
cross-chain quest names present. -/
def getDefaultProgressData : ProgressData where
  version := 1
  addresses := [("UNION", none), ("BABYLON", none), ("STARGAZE", none), ("STRIDE", none)]
  dailyInteractions := [("UNION", ⟨none, 0⟩), ("BABYLON", ⟨none, 0⟩)]
  transfers := [("UNION", ⟨0⟩), ("BABYLON", ⟨0⟩)]
  crossChain := [("CHAIN_REACTION", ⟨false⟩), ("TRIPLE_THREAT", ⟨false⟩), ("SIX_CHAINS", ⟨false⟩)]
/-- A parsed JSON object as stored on disk, as far as
`validateProgressData` inspects it.  Each section is `none` when the
key is absent or holds a falsy value (`null`), and `some` when it holds
an object; `version` is `none` when absent. -/
structure StoredObj where
  version : Option Nat
  addresses : Option (List (String × Option String))
  dailyInteractions : Option (List (String × DailyEntry))
  transfers : Option (List (String × TransferEntry))
  crossChain : Option (List (String × CrossEntry))
deriving DecidableEq, Repr
/-- The result of `JSON.parse` on the stored file: either not an object
(`null`, a number, ...) or an object. -/
inductive StoredJson where
  | nonObject
  | obj (o : StoredObj)
deriving DecidableEq, Repr
/-- `validateProgressData` (`core/progress/progress.js`, lines 58-85).
A non-object input takes the `!data || typeof data !== 'object'` branch
and yields the defaults.  For an object, `{...defaultData, ...data}` is
a shallow merge: a top-level section present in `data` replaces the
default wholesale, and the follow-up loop only replaces a section that
is absent or falsy; `version` is forced to 1 when absent or falsy
(`0`).  `lastUpdated` is refreshed (not modelled). -/
def validateProgressData : StoredJson → ProgressData
  | StoredJson.nonObject => getDefaultProgressData
  | StoredJson.obj o =>
      let dft := getDefaultProgressData
      { version :=
          match o.version with
          | none => 1
          | some v => if v = 0 then 1 else v
        addresses := o.addresses.getD dft.addresses
        dailyInteractions := o.dailyInteractions.getD dft.dailyInteractions
        transfers := o.transfers.getD dft.transfers
        crossChain := o.crossChain.getD dft.crossChain }
/-- The state of one progress file as `readProgressData` can observe it:
missing (`ENOENT`), unparsable (`JSON.parse` throws `SyntaxError`), or
parsed to a JSON value.  Other I/O errors rethrow in the source and are
outside the claims about missing/corrupt storage. -/
inductive FileVal where
  | missing
  | corrupt
  | parsed (j : StoredJson)
deriving DecidableEq, Repr
/-- `recoverFromBackup` (`core/progress/progress.js`, lines 194-217):
read the backup file; on any failure (missing or unparsable) fall back
to the defaults (and persist them); on success validate the recovered
data (a parsed non-object also ends at the defaults via
`validateProgressData`). -/
def recoverFromBackup : FileVal → ProgressData
  | FileVal.parsed j => validateProgressData j
  | FileVal.missing => getDefaultProgressData
  | FileVal.corrupt => getDefaultProgressData
/-- `readProgressData` of the atomic-rename variant
(`core/progress/progress.js`, lines 104-133), as a function of the main
file's and the backup file's observable states.  Missing file: persist
and return the defaults.  Parse error: recover from backup.  Parsed:
validate.  The function is total over these cases — the parse failure
is never propagated. -/
def readProgressData (file backup : FileVal) : ProgressData :=
  match file with
  | FileVal.parsed j => validateProgressData j
  | FileVal.missing => getDefaultProgressData
  | FileVal.corrupt => recoverFromBackup backup
/-- The chains configured in `addresses` of the default record. -/
def addressChains : List String := ["UNION", "BABYLON", "STARGAZE", "STRIDE"]
/-- The chains configured for daily interactions. -/
def dailyChains : List String := ["UNION", "BABYLON"]
/-- The chains configured for transfer counting. -/
def transferChains : List String := ["UNION", "BABYLON"]
/-- The cross-chain quest names known to configuration
(`config/quests.js`, `CROSS_CHAIN`). -/
def crossChainQuestNames : List String := ["CHAIN_REACTION", "TRIPLE_THREAT", "SIX_CHAINS"]
/-- Whether a record has an entry for every chain and quest name known
to configuration, in all four sub-mappings. -/
def hasAllConfiguredKeys (r : ProgressData) : Bool :=
  addressChains.all (fun c => (r.addresses.lookup c).isSome) &&
  dailyChains.all (fun c => (r.dailyInteractions.lookup c).isSome) &&
  transferChains.all (fun c => (r.transfers.lookup c).isSome) &&
  crossChainQuestNames.all (fun q => (r.crossChain.lookup q).isSome)
/-- A stored record whose `transfers` section is present but lacks the
BABYLON entry, and whose other sections are absent. -/
def storedMissingBabylon : StoredObj where
  version := none
  addresses := none
  dailyInteractions := none
  transfers := some [("UNION", ⟨5⟩)]
  crossChain := none
/-- One transfer milestone quest from `config/quests.js`
(`quests.TRANSFER`). -/
structure TransferQuest where
  name : String
  count : Nat
  xp : Nat
deriving DecidableEq, Repr
/-- `quests.TRANSFER.UNION` from `config/quests.js` (lines 41-48). -/
def TRANSFER_UNION : List TransferQuest :=
  [⟨"INITIATE", 1, 5⟩, ⟨"APPRENTICE", 10, 5⟩, ⟨"JOURNEYMAN", 25, 5⟩,
   ⟨"CHAMPION", 50, 5⟩, ⟨"MAESTRO", 250, 5⟩, ⟨"GRAND_MASTER", 500, 15⟩]
/-- `quests.TRANSFER.BABYLON` from `config/quests.js` (lines 49-56). -/
def TRANSFER_BABYLON : List TransferQuest :=
  [⟨"BEGINNER", 1, 5⟩, ⟨"DABBLER", 10, 5⟩, ⟨"EXPLORER", 25, 5⟩,
   ⟨"NAVIGATOR", 50, 5⟩, ⟨"GARDENS_HERO", 250, 5⟩, ⟨"TOWER", 500, 15⟩]
/-- `this.config.quests.TRANSFER[chain]` for the configured chains; the
source throws for any other chain (property access on `undefined`), so
the embedding is only used at `"UNION"` and `"BABYLON"`. -/
def questsTransfer (chain : String) : List TransferQuest :=
  if chain = "UNION" then TRANSFER_UNION
  else if chain = "BABYLON" then TRANSFER_BABYLON
  else []
/-- The loop body of `determineTransfersNeeded`
(`core/quests/transferQuest.js`): scan the quest list in order and
return `quest.count - currentCount` for the first quest with
`currentCount < quest.count`, else 0. -/
def transfersNeededLoop : List TransferQuest → Nat → Nat
  | [], _ => 0
  | q :: qs, c => if c < q.count then q.count - c else transfersNeededLoop qs c
/-- `determineTransfersNeeded(chain, currentCount)`
(`core/quests/transferQuest.js`, lines 355-369 of the concatenated
file). -/
def determineTransfersNeeded (chain : String) (currentCount : Nat) : Nat :=
  transfersNeededLoop (questsTransfer chain) currentCount
/-- The spec's description of transfers-needed, written from its words:
the first milestone threshold strictly greater than the current count,
minus the current count; zero when no milestone remains. -/
def specTransfersNeeded (milestones : List Nat) (c : Nat) : Nat :=
  match milestones.find? (fun m => c < m) with
  | some m => m - c
  | none => 0
/-- A `TaskResult` as resolved by `WorkerManager.runWorker`
(`core/workers/workerManager.js`): a success flag and an optional error
message.  Extra payload fields carried by a worker's own result object
do not affect any property proved here and are not modelled. -/
structure TaskResult where
  success : Bool
  error : Option String
deriving DecidableEq, Repr
/-- The shape of a `message` event posted by a worker:
`{ success, result, error }`.  `result` is the worker's own result
object when present (`message.result || { success: true }`). -/
structure WMessage where
  success : Bool
  result : Option TaskResult
  error : Option String
deriving DecidableEq, Repr
/-- One event the execution unit (worker thread) can emit, in emission
order: a posted message, an `error` event (which is also how an
uncaught throw inside the unit surfaces under `worker_threads`), or an
`exit` event with an exit code. -/
inductive WEvent where
  | message (m : WMessage)
  | errorEvent (msg : String)
  | exited (code : Nat)
deriving DecidableEq, Repr
/-- The observable behaviour of one execution unit: either the `Worker`
constructor throws synchronously (caught by the `try` around it), or
the unit emits a sequence of events. -/
inductive WorkerBehavior where
  | createFail (msg : String)
  | events (evs : List WEvent)
deriving DecidableEq, Repr
/-- How one event settles `runWorker`'s promise
(`core/workers/workerManager.js`, lines 607-637 of the concatenated
file): a success message resolves with the worker's result object (or
`{success: true}`), a failure message and an `error` event resolve with
a failed result, a non-zero `exit` resolves with a failed result, and
an `exit` with code 0 does not resolve at all (the handler only cleans
up).  Every handler calls `resolve`, never `reject`. -/
def settleEvent : WEvent → Option TaskResult
  | WEvent.message m =>
      some (if m.success then m.result.getD ⟨true, none⟩ else ⟨false, m.error⟩)
  | WEvent.errorEvent e => some ⟨false, some e⟩
  | WEvent.exited c =>
      if c = 0 then none else some ⟨false, some ("Exited with code " ++ toString c)⟩
/-- A promise settles exactly once: the first settling event wins and
every later event is ignored. -/
def firstSettle : List WEvent → Option TaskResult
  | [] => none
  | ev :: rest =>
      match settleEvent ev with
      | some r => some r
      | none => firstSettle rest
/-- `WorkerManager.runWorker` as a function of the unit's behaviour:
the resolved `TaskResult`, or `none` when the promise never settles
(the unit never messages, never errors, and never exits abnormally).
There is no timeout path. -/
def runWorker : WorkerBehavior → Option TaskResult
  | WorkerBehavior.createFail msg => some ⟨false, some msg⟩
  | WorkerBehavior.events evs => firstSettle evs
/-- `Promise.all` over already-started promises: `some` of the results
in order iff every member settles, `none` (pending forever) otherwise. -/
def allSome {α : Type} : List (Option α) → Option (List α)
  | [] => some []
  | o :: os => o.bind fun x => (allSome os).map fun xs => x :: xs
/-- The chunk decomposition performed by the `while` loop of
`WorkerManager.runBatch` (lines 661-680 of the concatenated file):
consecutive chunks of `batchSize` tasks (the last chunk smaller).  The
`fuel` argument makes the recursion structural; it is instantiated with
the task-list length, which bounds the number of iterations whenever
`batchSize ≥ 1`.  A `none` result models the loop never terminating,
which happens exactly when `batchSize = 0` and tasks remain
(`processedCount` stops advancing in the source). -/
def chunksGo {α : Type} (batchSize : Nat) : Nat → List α → Option (List (List α))
  | _, [] => some []
  | 0, _ :: _ => none
  | fuel + 1, t :: ts =>
      if batchSize = 0 then none
      else
        (chunksGo batchSize fuel ((t :: ts).drop batchSize)).map
          fun rest => (t :: ts).take batchSize :: rest
/-- The chunks a call `runBatch(tasks, maxConcurrent)` forms:
`batchSize = min(maxConcurrent, tasks.length)` is computed once, then
the loop takes `batchSize` tasks at a time. -/
def runBatchChunks {α : Type} (tasks : List α) (maxConcurrent : Nat) :
    Option (List (List α)) :=
  chunksGo (min maxConcurrent tasks.length) tasks.length tasks
/-- `WorkerManager.runBatch`: form the chunks, run each chunk's workers
and await them all (`Promise.all`), and concatenate the chunk results
in order (`results.push(...batchResults)`).  `none` models a call that
never returns: a chunk containing a never-settling worker, or a zero
concurrency limit with a non-empty task list. -/
def runBatch (tasks : List WorkerBehavior) (maxConcurrent : Nat) :
    Option (List TaskResult) :=
  (runBatchChunks tasks maxConcurrent).bind fun cs =>
    (allSome (cs.map fun c => allSome (c.map runWorker))).map List.flatten
/-- A daily-interaction task as built by
`DailyInteractionService.createDailyInteractionTask`
(`core/quests/dailyInteraction.js`, lines 144-169): the fields that
matter to scheduling are the owning wallet and the chain
(`sourceChain == destinationChain == chain`, `isDaily: true`,
`workerPath: 'transferWorker.js'`). -/
structure DITask where
  walletIndex : Nat
  chain : String
deriving DecidableEq, Repr
/-- The JS test `progressData.addresses[chain] !== null`: true for a
missing key (`undefined`) and for a string, false only for a stored
`null`. -/
def jsNotNull : Option (Option String) → Bool
  | none => true
  | some none => false
  | some (some _) => true
/-- `DailyInteractionService.needsDailyInteraction`
(`core/quests/dailyInteraction.js`, lines 130-133):
`lastInteraction !== today && addresses[chain] !== null`.  Reading
`.lastInteraction` of a missing `dailyInteractions` entry throws in JS,
modelled as `none`. -/
def needsDailyInteraction (chain today : String) (pd : ProgressData) : Option Bool :=
  (pd.dailyInteractions.lookup chain).map fun e =>
    (e.lastInteraction != some today) && jsNotNull (pd.addresses.lookup chain)
/-- `DailyInteractionService.prepareWalletTasks`
(`core/quests/dailyInteraction.js`, lines 97-121): one task per due
chain, UNION first, then BABYLON, all for the same wallet. -/
def prepareWalletTasks (walletIndex : Nat) (today : String) (pd : ProgressData) :
    Option (List DITask) := do
  let u ← needsDailyInteraction "UNION" today pd
  let b ← needsDailyInteraction "BABYLON" today pd
  pure ((if u then [DITask.mk walletIndex "UNION"] else []) ++
        (if b then [DITask.mk walletIndex "BABYLON"] else []))
/-- `DailyInteractionService.run` (lines 70-89) submits all of the
wallet's prepared tasks in a single `workerManager.runBatch(tasks)`
call; the concurrency limit defaults to
`WorkerManager.maxConcurrentWorkers = 3`.  This gives the chunks that
one wallet's daily tasks are scheduled in. -/
def dailyRunChunks (walletIndex : Nat) (today : String) (pd : ProgressData) :
    Option (List (List DITask)) :=
  (prepareWalletTasks walletIndex today pd).bind fun ts => runBatchChunks ts 3
/-- A progress record in which both daily chains are due today and both
addresses are derived: the default record with UNION and BABYLON
addresses filled in. -/
def pdBothDue : ProgressData :=
  { getDefaultProgressData with
      addresses := [("UNION", some "union1qqexample"), ("BABYLON", some "bbn1qqexample"),
                    ("STARGAZE", none), ("STRIDE", none)] }
/-- One cross-chain quest from `config/quests.js` (`quests.CROSS_CHAIN`). -/
structure CrossChainQuest where
  name : String
  path : List String
  xp : Nat
deriving DecidableEq, Repr
/-- `quests.CROSS_CHAIN` from `config/quests.js` (lines 59-75). -/
def CROSS_CHAIN : List CrossChainQuest :=
  [⟨"CHAIN_REACTION", ["UNION", "BABYLON"], 5⟩,
   ⟨"TRIPLE_THREAT", ["UNION", "BABYLON", "STARGAZE"], 5⟩,
   ⟨"SIX_CHAINS", ["UNION", "BABYLON", "STARGAZE", "STRIDE", "BABYLON", "UNION"], 5⟩]
/-- The guard `progressData.crossChain[questName] &&
progressData.crossChain[questName].completed` of
`executeCrossChainQuest`: a missing entry is falsy. -/
def crossChainDone (questName : String) (pd : ProgressData) : Bool :=
  match pd.crossChain.lookup questName with
  | some e => e.completed
  | none => false
/-- The observable outcome of one `executeCrossChainQuest` attempt:
which path-step indices were executed (a worker launched and awaited),
whether `updateCrossChainQuest(questName, true)` was invoked, and the
boolean return value. -/
structure CrossChainExec where
  stepsRun : List Nat
  completedWritten : Bool
  result : Bool
deriving DecidableEq, Repr
/-- `CrossChainQuestService.executeCrossChainQuest` of
`src/unnamed/part_008` (lines 142-225), with the success of step `i`
(the transfer `path[i] → path[i+1]`) given by the environment
`stepSucceeds`.  The loop runs every step `i < path.length - 1`; on a
failed step it records the failure and continues ("We continue to the
next step despite the failure").  Only when every step succeeded is the
quest marked completed; the return value is `allSuccess` (or `true`
without running any step when the quest is already completed, `false`
when the quest name is not configured). -/
def executeCrossChainQuest (questName : String) (pd : ProgressData)
    (stepSucceeds : Nat → Bool) : CrossChainExec :=
  match CROSS_CHAIN.find? (fun q => q.name == questName) with
  | none => ⟨[], false, false⟩
  | some quest =>
      if crossChainDone questName pd then ⟨[], false, true⟩
      else
        let steps := List.range (quest.path.length - 1)
        let allSuccess := steps.all stepSucceeds
        ⟨steps, allSuccess, allSuccess⟩
/-- An environment in which the first step of a path fails and every
later step succeeds. -/
def envFailFirst : Nat → Bool := fun i => decide (i ≠ 0)
/-- The file-system slice touched by the atomic-rename
`saveProgressData` (`core/progress/progress.js`, lines 140-170): the
durable file, the temporary file and the backup file.  Contents are
modelled as character lists. -/
structure FsState where
  main : Option (List Char)
  temp : Option (List Char)
  backup : Option (List Char)
deriving DecidableEq, Repr
/-- The state after the backup step of the rename-based
`saveProgressData`: the current durable content, when there is one, is
copied to the backup file. -/
def afterBackupStep (fs : FsState) : FsState :=
  match fs.main with
  | some c => { fs with backup := some c }
  | none => fs
/-- Every state a crash can leave behind during the rename-based
`saveProgressData` writing serialized content `s`: before anything, in
the middle of or after the backup write, in the middle of or after the
temporary-file write (`fs.writeFile(this.tempFilePath, ...)`), and
after the atomic `fs.rename(tempFilePath, filePath)`.  A crash in the
middle of a `writeFile` leaves some prefix of the written bytes; the
`rename` itself is atomic and has no intermediate state. -/
inductive saveCrash (fs : FsState) (s : List Char) : FsState → Prop
  | start : saveCrash fs s fs
  | midBackup (c : List Char) (k : Nat) (h : fs.main = some c) :
      saveCrash fs s { fs with backup := some (c.take k) }
  | backupDone : saveCrash fs s (afterBackupStep fs)
  | midTemp (k : Nat) : saveCrash fs s { afterBackupStep fs with temp := some (s.take k) }
  | tempDone : saveCrash fs s { afterBackupStep fs with temp := some s }
  | renamed : saveCrash fs s { afterBackupStep fs with temp := none, main := some s }
/-- The file-system slice touched by the lock-file variant of
`saveProgressData` (`core/progress/progress.js`, lines 491-515): the
durable file and the lock file. -/
structure LkState where
  main : Option (List Char)
  lock : Bool
deriving DecidableEq, Repr
/-- Every state a crash can leave behind during the lock-file variant
of `saveProgressData` writing serialized content `s`: this variant
writes the durable file in place
(`fs.writeFile(this.filePath, JSON.stringify(...))`) with no temporary
file and no rename, so a crash in the middle of the write leaves some
prefix of `s` as the durable content. -/
inductive saveLockCrash (fs : LkState) (s : List Char) : LkState → Prop
  | start : saveLockCrash fs s fs
  | locked : saveLockCrash fs s { fs with lock := true }
  | midWrite (k : Nat) : saveLockCrash fs s { main := some (s.take k), lock := true }
  | written : saveLockCrash fs s { main := some s, lock := true }
  | released : saveLockCrash fs s { main := some s, lock := false }
/-- The JS object-spread update `{...obj, [key]: value}` on an
association list: an existing key keeps its position and gets the new
value; a new key is appended. -/
def setKey {α : Type} : List (String × α) → String → α → List (String × α)
  | [], k, v => [(k, v)]
  | (k2, v2) :: rest, k, v =>
      if k2 = k then (k2, v) :: rest else (k2, v2) :: setKey rest k v
/-- The update function passed by `updateTransferCount(chain, increment)`
(`core/progress/progress.js`): read
`data.transfers[chain]?.count || 0` and write back
`{...data.transfers, [chain]: {count: currentCount + increment}}`. -/
def updateTransferCountFn (chain : String) (increment : Nat) (d : ProgressData) :
    ProgressData :=
  let currentCount := ((d.transfers.lookup chain).map TransferEntry.count).getD 0
  { d with transfers := setKey d.transfers chain ⟨currentCount + increment⟩ }
/-- The program counter of one actor running the lock-file variant of
`updateProgressData(updateFn)` (`core/progress/progress.js`, lines
522-546) for a wallet whose file is present and parses to a complete
record (so `validateProgressData` is the identity on its sections and
reading yields the stored record).  The await points of the source
separate the steps:
`acq0` — about to run the `fs.access` lock check inside `waitForLock`;
`acq1` — the check saw no lock file, about to `fs.writeFile` the lock
(the source uses no exclusive flag, so this write succeeds even if the
lock file has appeared in the meantime);
`readStep` — holding the lock, about to read the record;
`writeStep d` — read `d`, about to write the updated record;
`unlockStep` — about to `fs.unlink` the lock file;
`doneStep` — finished. -/
inductive APC where
  | acq0
  | acq1
  | readStep
  | writeStep (d : ProgressData)
  | unlockStep
  | doneStep
deriving DecidableEq, Repr
/-- The shared state of the progress file and its lock file. -/
structure MState where
  file : Option ProgressData
  lock : Bool
deriving DecidableEq, Repr
/-- One atomic step of one actor running
`updateTransferCount("UNION", 1)` through the lock-file variant of
`updateProgressData`.  At `acq0` a present lock file sends the actor
back to sleep-and-retry (it stays at `acq0`); an absent lock file lets
it proceed to the creation step.  The creation step always succeeds
(`fs.writeFile` with the default flags overwrites an existing file). -/
def mstep (s : MState) : APC → MState × APC
  | APC.acq0 => if s.lock then (s, APC.acq0) else (s, APC.acq1)
  | APC.acq1 => ({ s with lock := true }, APC.readStep)
  | APC.readStep =>
      match s.file with
      | some d => (s, APC.writeStep d)
      | none => (s, APC.readStep)
  | APC.writeStep d =>
      ({ s with file := some (updateTransferCountFn "UNION" 1 d) }, APC.unlockStep)
  | APC.unlockStep => ({ s with lock := false }, APC.doneStep)
  | APC.doneStep => (s, APC.doneStep)
/-- Run two concurrent actors under an explicit interleaving: each
schedule entry says which actor performs its next atomic step
(`false` = actor A, `true` = actor B). -/
def runSched (st : MState × APC × APC) (sched : List Bool) : MState × APC × APC :=
  sched.foldl
    (fun st b =>
      if b then
        let r := mstep st.1 st.2.2
        (r.1, st.2.1, r.2)
      else
        let r := mstep st.1 st.2.1
        (r.1, r.2, st.2.2))
    st
/-- The strictly alternating interleaving A, B, A, B, ...: both actors
pass the lock check before either creates the lock file, so both enter
the critical section. -/
def lostUpdateSched : List Bool :=
  [false, true, false, true, false, true, false, true, false, true]
/-- The UNION transfer count stored in a machine state's file. -/
def unionCount (s : MState) : Option Nat :=
  s.file.map fun d => ((d.transfers.lookup "UNION").map TransferEntry.count).getD 0
/-- `lockTimeout` of the lock-file variant: 10000 ms. -/
def lockTimeout : Nat := 10000
/-- `lockRetryInterval` of the lock-file variant: 100 ms. -/
def lockRetryInterval : Nat := 100
/-- The polling loop of `waitForLock` (`core/progress/progress.js`,
lines 409-435), for a single actor (so the lock file's presence `held`
cannot change during the wait): while the elapsed time is below
`lockTimeout`, check the lock file; if present, sleep
`lockRetryInterval` and retry; if absent, acquire.  Returns whether the
lock was acquired and the elapsed time on return.  The `fuel` argument
makes the recursion structural; `waitForLockP` supplies enough fuel for
the 100 polls the budget admits, so exhaustion is unreachable. -/
def pollLoop (held : Bool) : Nat → Nat → Bool × Nat
  | 0, elapsed => (false, elapsed)
  | fuel + 1, elapsed =>
      if elapsed < lockTimeout then
        if held then pollLoop held fuel (elapsed + lockRetryInterval)
        else (true, elapsed)
      else (false, elapsed)
/-- `waitForLock` for a single actor: `(acquired, elapsed ms)`. -/
def waitForLockP (held : Bool) : Bool × Nat :=
  pollLoop held 101 0
/-- The file-and-lock state seen by the lock-file variant of the
progress service. -/
structure PFS where
  file : FileVal
  lock : Bool
deriving DecidableEq, Repr
/-- Re-serialization of a validated record: every section is present in
the stored JSON object. -/
def ofRecord (r : ProgressData) : StoredObj where
  version := some r.version
  addresses := some r.addresses
  dailyInteractions := some r.dailyInteractions
  transfers := some r.transfers
  crossChain := some r.crossChain
/-- `saveProgressData` of the lock-file variant
(`core/progress/progress.js`, lines 491-515): acquire the lock (throw
`'Could not acquire lock for saving progress data'` on timeout),
validate, write the file in place, and release the lock in the
`finally`. -/
def saveProgressDataLk (fs : PFS) (d : ProgressData) : PFS × Except String Unit :=
  if (waitForLockP fs.lock).1 then
    let v := validateProgressData (StoredJson.obj (ofRecord d))
    ({ file := FileVal.parsed (StoredJson.obj (ofRecord v)), lock := false },
     Except.ok ())
  else
    (fs, Except.error "Could not acquire lock for saving progress data")
/-- `readProgressData` of the lock-file variant
(`core/progress/progress.js`, lines 453-484): parsed content is
validated; a missing file and a parse error both build the default
record and call `saveProgressData` on it — whose failure (for example a
lock timeout) propagates out of the `catch` block. -/
def readProgressDataLk (fs : PFS) : PFS × Except String ProgressData :=
  match fs.file with
  | FileVal.parsed j => (fs, Except.ok (validateProgressData j))
  | FileVal.missing =>
      match saveProgressDataLk fs getDefaultProgressData with
      | (fs2, Except.ok _) => (fs2, Except.ok getDefaultProgressData)
      | (fs2, Except.error m) => (fs2, Except.error m)
  | FileVal.corrupt =>
      match saveProgressDataLk fs getDefaultProgressData with
      | (fs2, Except.ok _) => (fs2, Except.ok getDefaultProgressData)
      | (fs2, Except.error m) => (fs2, Except.error m)
/-- `updateProgressData` of the lock-file variant
(`core/progress/progress.js`, lines 522-546), run by a single actor:
acquire the lock (throw `'Could not acquire lock for updating progress
data'` on timeout), read the current record with `readProgressData`,
apply `updateFn`, write the validated result in place, return the
updated (unvalidated) record; any error is rethrown after the `finally`
releases the lock. -/
def updateProgressDataLk (fs : PFS) (updateFn : ProgressData → ProgressData) :
    PFS × Except String ProgressData :=
  if (waitForLockP fs.lock).1 then
    let fs1 : PFS := { fs with lock := true }
    match readProgressDataLk fs1 with
    | (fs2, Except.ok d) =>
        let d2 := updateFn d
        let fs3 : PFS :=
          { fs2 with
              file := FileVal.parsed (StoredJson.obj (ofRecord
                (validateProgressData (StoredJson.obj (ofRecord d2))))) }
        ({ fs3 with lock := false }, Except.ok d2)
    | (fs2, Except.error m) => ({ fs2 with lock := false }, Except.error m)
  else
    (fs, Except.error "Could not acquire lock for updating progress data")
/-- Whether a unit behaviour contains anything that settles
`runWorker`'s promise. -/
def hasSettling : WorkerBehavior → Bool
  | WorkerBehavior.createFail _ => true
  | WorkerBehavior.events evs => evs.any fun ev => (settleEvent ev).isSome
/-- A non-settling event list: a clean exit posts no result. -/
def preEx : List WEvent := [WEvent.exited 0]
/-- Three concrete tasks: one succeeds, one emits an error event, one
fails at worker creation. -/
def tasksEx : List WorkerBehavior :=
  [WorkerBehavior.events [WEvent.message ⟨true, none, none⟩],
   WorkerBehavior.events [WEvent.errorEvent "rpc timeout"],
   WorkerBehavior.createFail "spawn error"]
/-- The TRIPLE_THREAT quest as configured. -/
def questTriple : CrossChainQuest := ⟨"TRIPLE_THREAT", ["UNION", "BABYLON", "STARGAZE"], 5⟩
/-- An environment in which every step succeeds. -/
def envAllOk : Nat → Bool := fun _ => true
/-- The fully sequential interleaving: actor A runs to completion, then
actor B. -/
def sequentialSched : List Bool :=
  [false, false, false, false, false, true, true, true, true, true]

theorem transfersNeededLoop_eq_spec (qs : List TransferQuest) (c : Nat) :
    transfersNeededLoop qs c = specTransfersNeeded (qs.map TransferQuest.count) c := by
  induction qs with
  | nil => rfl
  | cons q qs ih =>
      by_cases h : c < q.count
      · simp [transfersNeededLoop, specTransfersNeeded, List.find?, h]
      · simp only [transfersNeededLoop, if_neg h, ih, specTransfersNeeded, List.map_cons,
          List.find?]
        simp [decide_eq_true_eq, h]

theorem allSome_append {α : Type} (xs ys : List (Option α)) :
    allSome (xs ++ ys) =
      (allSome xs).bind fun a => (allSome ys).map fun b => a ++ b := by
  induction xs with
  | nil =>
      show allSome ys = (allSome ys).map fun b => [] ++ b
      cases allSome ys with
      | none => rfl
      | some b => simp
  | cons o os ih =>
      cases o with
      | none => rfl
      | some x =>
          have lhs1 : allSome (some x :: (os ++ ys)) =
              (allSome (os ++ ys)).map fun l => x :: l := rfl
          have rhs1 : allSome (some x :: os) = (allSome os).map fun l => x :: l := rfl
          rw [List.cons_append, lhs1, rhs1, ih]
          cases allSome os with
          | none => rfl
          | some a =>
              cases allSome ys with
              | none => rfl
              | some b => rfl

theorem allSome_flatten_cons (chunk : List WorkerBehavior)
    (rest : List (List WorkerBehavior)) :
    (allSome ((chunk :: rest).map fun c => allSome (c.map runWorker))).map List.flatten =
      (allSome (chunk.map runWorker)).bind fun a =>
        ((allSome (rest.map fun c => allSome (c.map runWorker))).map List.flatten).map
          fun b => a ++ b := by
  have lhs1 : allSome ((chunk :: rest).map fun c => allSome (c.map runWorker)) =
      (allSome (chunk.map runWorker)).bind fun a =>
        (allSome (rest.map fun c => allSome (c.map runWorker))).map fun l => a :: l := rfl
  rw [lhs1]
  cases allSome (chunk.map runWorker) with
  | none => rfl
  | some a =>
      cases allSome (rest.map fun c => allSome (c.map runWorker)) with
      | none => rfl
      | some bs => simp

theorem chunksGo_run (batchSize : Nat) (hb : 1 ≤ batchSize) :
    ∀ (fuel : Nat) (tasks : List WorkerBehavior), tasks.length ≤ fuel →
      ((chunksGo batchSize fuel tasks).bind fun cs =>
        (allSome (cs.map fun c => allSome (c.map runWorker))).map List.flatten) =
      allSome (tasks.map runWorker) := by
  intro fuel
  induction fuel with
  | zero =>
      intro tasks hlen
      have htn : tasks = [] := List.eq_nil_of_length_eq_zero (Nat.le_zero.mp hlen)
      subst htn
      rfl
  | succ f ih =>
      intro tasks hlen
      match tasks with
      | [] => rfl
      | t :: ts =>
          have hbz : ¬ batchSize = 0 := by omega
          have hdrop : ((t :: ts).drop batchSize).length ≤ f := by
            have hld := List.length_drop batchSize (t :: ts)
            have h1 : (t :: ts).length ≤ f + 1 := hlen
            omega
          have hrec := ih ((t :: ts).drop batchSize) hdrop
          have hsplit : (t :: ts).map runWorker =
              ((t :: ts).take batchSize).map runWorker ++
              ((t :: ts).drop batchSize).map runWorker := by
            rw [← List.map_append, List.take_append_drop]
          simp only [chunksGo, if_neg hbz]
          cases hcs : chunksGo batchSize f ((t :: ts).drop batchSize) with
          | none =>
              have hd : allSome (((t :: ts).drop batchSize).map runWorker) = none := by
                rw [← hrec, hcs]
                rfl
              rw [hsplit, allSome_append, hd]
              cases allSome (((t :: ts).take batchSize).map runWorker) <;> rfl
          | some rest =>
              have hrec2 : (allSome (rest.map fun c =>
                  allSome (c.map runWorker))).map List.flatten =
                  allSome (((t :: ts).drop batchSize).map runWorker) := by
                rw [← hrec, hcs]
                rfl
              have step1 : ((some rest).map
                    (fun r => (t :: ts).take batchSize :: r)).bind
                  (fun cs => (allSome (cs.map fun c =>
                    allSome (c.map runWorker))).map List.flatten) =
                  (allSome ((((t :: ts).take batchSize) :: rest).map fun c =>
                    allSome (c.map runWorker))).map List.flatten := rfl
              rw [step1, allSome_flatten_cons, hrec2, hsplit, allSome_append]

theorem runBatch_eq_mapWorkers (tasks : List WorkerBehavior) (mc : Nat) (h : 1 ≤ mc) :
    runBatch tasks mc = allSome (tasks.map runWorker) := by
  match tasks with
  | [] => rfl
  | t :: ts =>
      have hb : 1 ≤ min mc (t :: ts).length := by
        have hl : 1 ≤ (t :: ts).length := by simp
        omega
      exact chunksGo_run (min mc (t :: ts).length) hb (t :: ts).length (t :: ts)
        (Nat.le_refl _)

theorem allSome_of_forall_isSome {α : Type} (os : List (Option α))
    (h : ∀ o ∈ os, o.isSome) :
    ∃ xs, allSome os = some xs ∧ xs.length = os.length ∧
      ∀ (i : Nat) (h1 : i < os.length) (h2 : i < xs.length), os[i] = some (xs[i]) := by
  induction os with
  | nil => exact ⟨[], rfl, rfl, fun i h1 _ => absurd h1 (by simp)⟩
  | cons o os ih =>
      obtain ⟨x, hx⟩ := Option.isSome_iff_exists.mp (h o (by simp))
      subst hx
      obtain ⟨xs, hxs, hlen, hget⟩ := ih (fun o ho => h o (by simp [ho]))
      refine ⟨x :: xs, ?_, by simp [hlen], ?_⟩
      · show (allSome os).map (fun l => x :: l) = some (x :: xs)
        rw [hxs]
        rfl
      · intro i h1 h2
        match i with
        | 0 => rfl
        | i + 1 =>
            simp only [List.getElem_cons_succ]
            exact hget i (by simpa using h1) (by simpa using h2)

/-- C1, counterexample: the claim says the record returned by
`readProgressData` has an entry for every configured chain even when a
stored sub-mapping is present but missing some per-chain entries.  For
a stored record whose `transfers` section holds only a UNION entry, the
shallow merge of `validateProgressData` keeps that section verbatim:
the returned record has no BABYLON transfers entry. -/
theorem C1_counterexample :
    (readProgressData (FileVal.parsed (StoredJson.obj storedMissingBabylon))
        FileVal.missing).transfers.lookup "BABYLON" = none ∧
    hasAllConfiguredKeys (readProgressData
        (FileVal.parsed (StoredJson.obj storedMissingBabylon)) FileVal.missing) = false := by
  decide

/-- C1, amended: `readProgressData` never throws for a missing or
unparsable backing file, and whenever a sub-mapping is wholly absent
(or the file is missing, unparsable with an unusable backup, or not a
JSON object) the affected sub-mappings are the defaults, which contain
an entry for every configured chain and quest name; but a sub-mapping
that is present in the stored record is returned verbatim, so per-chain
or per-quest entries missing inside it are not healed. -/
theorem C1_read_heals_only_whole_sections (b : FileVal) (o : StoredObj) :
    hasAllConfiguredKeys (readProgressData FileVal.missing b) = true ∧
    hasAllConfiguredKeys (readProgressData FileVal.corrupt FileVal.missing) = true ∧
    hasAllConfiguredKeys (readProgressData FileVal.corrupt FileVal.corrupt) = true ∧
    hasAllConfiguredKeys (readProgressData (FileVal.parsed StoredJson.nonObject) b) = true ∧
    hasAllConfiguredKeys getDefaultProgressData = true ∧
    (readProgressData (FileVal.parsed (StoredJson.obj o)) b).addresses
      = o.addresses.getD getDefaultProgressData.addresses ∧
    (readProgressData (FileVal.parsed (StoredJson.obj o)) b).dailyInteractions
      = o.dailyInteractions.getD getDefaultProgressData.dailyInteractions ∧
    (readProgressData (FileVal.parsed (StoredJson.obj o)) b).transfers
      = o.transfers.getD getDefaultProgressData.transfers ∧
    (readProgressData (FileVal.parsed (StoredJson.obj o)) b).crossChain
      = o.crossChain.getD getDefaultProgressData.crossChain := by
  have hdef : hasAllConfiguredKeys getDefaultProgressData = true := by decide
  exact ⟨hdef, hdef, hdef, hdef, hdef, rfl, rfl, rfl, rfl⟩

/-- C7, counterexample: the claim says every `runWorker` invocation
completes within a bounded wait, timing out into a failed TaskResult if
the unit never posts a result.  The source installs no timeout: a unit
that emits no event, and a unit that exits cleanly without ever posting
a message, leave the promise pending forever. -/
theorem C7_counterexample :
    runWorker (WorkerBehavior.events []) = none ∧
    runWorker (WorkerBehavior.events [WEvent.exited 0]) = none := by
  decide

/-- C7, amended: `runWorker` settles exactly when the unit's behaviour
contains a settling occurrence — a posted message, an error event, a
non-zero exit, or a synchronous creation failure; there is no bounded
wait, so a unit that never produces one leaves the call pending
indefinitely. -/
theorem C7_settles_iff_event (b : WorkerBehavior) :
    (runWorker b).isSome = hasSettling b := by
  cases b with
  | createFail m => rfl
  | events evs =>
      show (firstSettle evs).isSome = evs.any fun ev => (settleEvent ev).isSome
      induction evs with
      | nil => rfl
      | cons ev rest ih =>
          cases hse : settleEvent ev with
          | some r => simp [firstSettle, hse]
          | none => simp [firstSettle, hse, ih]

theorem firstSettle_append_none (pre l : List WEvent)
    (h : ∀ ev ∈ pre, settleEvent ev = none) :
    firstSettle (pre ++ l) = firstSettle l := by
  induction pre with
  | nil => rfl
  | cons e pre ih =>
      have he : settleEvent e = none := h e (by simp)
      simp only [List.cons_append, firstSettle, he]
      exact ih (fun ev hev => h ev (by simp [hev]))

/-- C3: `runWorker` produces exactly one TaskResult per task — the
first settling event wins, regardless of what follows — and each error
mode is normalized into a failed TaskResult carrying an error message
rather than an exception: a synchronous creation failure, an error
event (which is how an uncaught throw inside the unit surfaces), a
non-zero exit, and a failure message.  `runWorker` only ever resolves
(it is a total function into `Option TaskResult`); no exception crosses
the pool boundary. -/
theorem C3_runWorker_normalizes (pre rest : List WEvent) (e msg : String) (c : Nat)
    (m : WMessage) (hpre : ∀ ev ∈ pre, settleEvent ev = none) (hc : c ≠ 0)
    (hm : m.success = false) :
    runWorker (WorkerBehavior.createFail msg) = some ⟨false, some msg⟩ ∧
    runWorker (WorkerBehavior.events (pre ++ WEvent.errorEvent e :: rest))
      = some ⟨false, some e⟩ ∧
    runWorker (WorkerBehavior.events (pre ++ WEvent.exited c :: rest))
      = some ⟨false, some ("Exited with code " ++ toString c)⟩ ∧
    runWorker (WorkerBehavior.events (pre ++ WEvent.message m :: rest))
      = some ⟨false, m.error⟩ := by
  have hw : ∀ l, runWorker (WorkerBehavior.events l) = firstSettle l := fun _ => rfl
  refine ⟨rfl, ?_, ?_, ?_⟩
  · rw [hw, firstSettle_append_none pre _ hpre]
    rfl
  · rw [hw, firstSettle_append_none pre _ hpre]
    simp [firstSettle, settleEvent, hc]
  · rw [hw, firstSettle_append_none pre _ hpre]
    simp [firstSettle, settleEvent, hm]

/-- Witness for C3 at concrete inputs: a clean exit before the settling
event, then each of the three error modes, each followed by a later
event that is ignored. -/
theorem C3_witness :
    runWorker (WorkerBehavior.createFail "spawn failed")
      = some ⟨false, some "spawn failed"⟩ ∧
    runWorker (WorkerBehavior.events
        (preEx ++ WEvent.errorEvent "boom" :: [WEvent.errorEvent "later"]))
      = some ⟨false, some "boom"⟩ ∧
    runWorker (WorkerBehavior.events
        (preEx ++ WEvent.exited 1 :: [WEvent.errorEvent "later"]))
      = some ⟨false, some ("Exited with code " ++ toString 1)⟩ ∧
    runWorker (WorkerBehavior.events
        (preEx ++ WEvent.message ⟨false, none, some "task failed"⟩ ::
          [WEvent.errorEvent "later"]))
      = some ⟨false, (⟨false, none, some "task failed"⟩ : WMessage).error⟩ :=
  C3_runWorker_normalizes preEx [WEvent.errorEvent "later"] "boom" "spawn failed" 1
    ⟨false, none, some "task failed"⟩ (by decide) (by decide) (by decide)

/-- C2: for every task list and concurrency limit at least 1, whenever
every task's unit settles, `runBatch` returns exactly one TaskResult
per input task, in input order, and the result at position `i` is
determined by task `i` alone — so a failed task neither cancels its
chunk siblings nor blocks later chunks nor alters any other task's
individual result. -/
theorem C2_runBatch_ordered (tasks : List WorkerBehavior) (mc : Nat) (h1 : 1 ≤ mc)
    (h2 : ∀ t ∈ tasks, (runWorker t).isSome) :
    ∃ rs, runBatch tasks mc = some rs ∧ rs.length = tasks.length ∧
      ∀ (i : Nat) (hi : i < tasks.length) (hr : i < rs.length),
        runWorker (tasks[i]) = some (rs[i]) := by
  obtain ⟨rs, hrs, hlen, hget⟩ := allSome_of_forall_isSome (tasks.map runWorker)
    (by
      intro o ho
      obtain ⟨t, ht, rfl⟩ := List.mem_map.mp ho
      exact h2 t ht)
  refine ⟨rs, ?_, by simpa using hlen, ?_⟩
  · rw [runBatch_eq_mapWorkers tasks mc h1, hrs]
  · intro i hi hr
    have hmi : i < (tasks.map runWorker).length := by simpa using hi
    have h3 := hget i hmi hr
    simpa using h3

/-- Witness for C2: three tasks (a success, an error event, a creation
failure) with concurrency 2 — the failing tasks do not disturb the
others. -/
theorem C2_witness :
    ∃ rs, runBatch tasksEx 2 = some rs ∧ rs.length = tasksEx.length ∧
      ∀ (i : Nat) (hi : i < tasksEx.length) (hr : i < rs.length),
        runWorker (tasksEx[i]) = some (rs[i]) :=
  C2_runBatch_ordered tasksEx 2 (by decide) (by decide)

/-- C5, counterexample: the claim says same-wallet tasks are never
placed in the same concurrent chunk and that the quest layer only hands
the scheduler same-wallet tasks as single-task batches.  But for a
wallet with both daily chains due, `DailyInteractionService.run`
submits both tasks in one `runBatch` call, and with the default
concurrency limit 3 they land in the same (single) chunk. -/
theorem C5_counterexample :
    dailyRunChunks 0 "2026-10-11" pdBothDue =
      some [[DITask.mk 0 "UNION", DITask.mk 0 "BABYLON"]] ∧
    (DITask.mk 0 "UNION").walletIndex = (DITask.mk 0 "BABYLON").walletIndex := by
  exact ⟨by decide, rfl⟩

/-- C5, amended: the daily-interaction service's task list for one
wallet (at most two tasks, UNION and BABYLON, all owned by that wallet)
is handed to `runBatch` in a single call, and under the default
concurrency limit 3 all of those same-wallet tasks are placed in one
shared concurrent chunk — not run one at a time in separate chunks. -/
theorem C5_daily_tasks_share_chunk (walletIndex : Nat) (today : String)
    (pd : ProgressData) (ts : List DITask)
    (h : prepareWalletTasks walletIndex today pd = some ts) :
    (∀ t ∈ ts, t.walletIndex = walletIndex) ∧
    runBatchChunks ts 3 = some (if ts = [] then [] else [ts]) := by
  cases hu : needsDailyInteraction "UNION" today pd with
  | none =>
      have hn : prepareWalletTasks walletIndex today pd = none := by
        simp [prepareWalletTasks, hu]
      rw [hn] at h
      exact Option.noConfusion h
  | some u =>
      cases hb : needsDailyInteraction "BABYLON" today pd with
      | none =>
          have hn : prepareWalletTasks walletIndex today pd = none := by
            simp [prepareWalletTasks, hu, hb]
          rw [hn] at h
          exact Option.noConfusion h
      | some bb =>
          have h2 : prepareWalletTasks walletIndex today pd =
              some ((if u then [DITask.mk walletIndex "UNION"] else []) ++
                    (if bb then [DITask.mk walletIndex "BABYLON"] else [])) := by
            simp [prepareWalletTasks, hu, hb]
          rw [h2] at h
          have hts := Option.some.inj h
          subst hts
          cases u <;> cases bb <;> exact ⟨by simp, rfl⟩

/-- Witness for C5 at a concrete wallet whose two daily chains are both
due: both tasks belong to wallet 7 and form one chunk. -/
theorem C5_witness :
    (∀ t ∈ [DITask.mk 7 "UNION", DITask.mk 7 "BABYLON"], t.walletIndex = 7) ∧
    runBatchChunks [DITask.mk 7 "UNION", DITask.mk 7 "BABYLON"] 3 =
      some (if ([DITask.mk 7 "UNION", DITask.mk 7 "BABYLON"] : List DITask) = []
            then [] else [[DITask.mk 7 "UNION", DITask.mk 7 "BABYLON"]]) :=
  C5_daily_tasks_share_chunk 7 "2026-10-11" pdBothDue
    [DITask.mk 7 "UNION", DITask.mk 7 "BABYLON"] (by decide)

/-- C9, counterexample: the claim says the sequential steps of a
cross-chain path are abandoned on the first failed step.  In the cited
`src/unnamed/part_008` variant the loop continues: with the first step
of TRIPLE_THREAT failing, step 1 (the second transfer) is still
executed; the quest is nevertheless not marked completed. -/
theorem C9_counterexample :
    (executeCrossChainQuest "TRIPLE_THREAT" getDefaultProgressData envFailFirst).stepsRun
      = [0, 1] ∧
    envFailFirst 0 = false ∧
    1 ∈ (executeCrossChainQuest "TRIPLE_THREAT" getDefaultProgressData
          envFailFirst).stepsRun ∧
    (executeCrossChainQuest "TRIPLE_THREAT" getDefaultProgressData
        envFailFirst).completedWritten = false := by
  decide

/-- C9, amended: within one attempt of a configured, not-yet-completed
cross-chain quest, every consecutive-pair step of the path is executed
— a failed step does not stop the remaining steps — and the quest is
recorded as completed exactly when every step in its path succeeds; a
failed attempt leaves the completed flag unwritten and returns
failure. -/
theorem C9_all_steps_run_completed_iff_all_succeed (questName : String)
    (pd : ProgressData) (env : Nat → Bool) (quest : CrossChainQuest)
    (hq : CROSS_CHAIN.find? (fun q => q.name == questName) = some quest)
    (hnc : crossChainDone questName pd = false) :
    (executeCrossChainQuest questName pd env).stepsRun
      = List.range (quest.path.length - 1) ∧
    ((executeCrossChainQuest questName pd env).completedWritten = true ↔
      ∀ i < quest.path.length - 1, env i = true) ∧
    (executeCrossChainQuest questName pd env).result
      = (executeCrossChainQuest questName pd env).completedWritten := by
  have he : executeCrossChainQuest questName pd env =
      ⟨List.range (quest.path.length - 1),
       (List.range (quest.path.length - 1)).all env,
       (List.range (quest.path.length - 1)).all env⟩ := by
    unfold executeCrossChainQuest
    rw [hq]
    simp [hnc]
  rw [he]
  refine ⟨rfl, ?_, rfl⟩
  simp [List.all_eq_true, List.mem_range]

/-- Witness for C9: TRIPLE_THREAT with every step succeeding. -/
theorem C9_witness :
    (executeCrossChainQuest "TRIPLE_THREAT" getDefaultProgressData envAllOk).stepsRun
      = List.range (questTriple.path.length - 1) ∧
    ((executeCrossChainQuest "TRIPLE_THREAT" getDefaultProgressData
        envAllOk).completedWritten = true ↔
      ∀ i < questTriple.path.length - 1, envAllOk i = true) ∧
    (executeCrossChainQuest "TRIPLE_THREAT" getDefaultProgressData envAllOk).result
      = (executeCrossChainQuest "TRIPLE_THREAT" getDefaultProgressData
          envAllOk).completedWritten :=
  C9_all_steps_run_completed_iff_all_succeed "TRIPLE_THREAT" getDefaultProgressData
    envAllOk questTriple (by decide) (by decide)

/-- C6, counterexample: the claim says `saveProgressData` persists via
write-to-temporary plus atomic rename so a crash never exposes a
truncated record.  The lock-file variant (also cited by the claim)
writes the durable file in place: a crash in the middle of that write
can leave a proper prefix of the new record — neither the old content
nor the new — as the durable content. -/
theorem C6_counterexample :
    saveLockCrash ⟨some "OLDRECORD".toList, false⟩ "NEWRECORD".toList
      ⟨some ("NEWRECORD".toList.take 3), true⟩ ∧
    (⟨some ("NEWRECORD".toList.take 3), true⟩ : LkState).main ≠
      (⟨some "OLDRECORD".toList, false⟩ : LkState).main ∧
    (⟨some ("NEWRECORD".toList.take 3), true⟩ : LkState).main ≠
      some "NEWRECORD".toList := by
  exact ⟨saveLockCrash.midWrite 3, by decide, by decide⟩

/-- C6, amended: the rename-based `saveProgressData` variant is
crash-atomic — whatever step a crash interrupts (backup write,
temporary write, or before/after the rename), the durable file holds
either its previous content in full or the new record in full, never a
truncation; the lock-file variant, which writes in place, does not have
this property. -/
theorem C6_rename_save_atomic (fs : FsState) (s : List Char) (fs2 : FsState)
    (h : saveCrash fs s fs2) : fs2.main = fs.main ∨ fs2.main = some s := by
  cases h with
  | start => exact Or.inl rfl
  | midBackup c k hc => exact Or.inl rfl
  | backupDone =>
      left
      cases hfm : fs.main <;> simp [afterBackupStep, hfm]
  | midTemp k =>
      left
      cases hfm : fs.main <;> simp [afterBackupStep, hfm]
  | tempDone =>
      left
      cases hfm : fs.main <;> simp [afterBackupStep, hfm]
  | renamed => exact Or.inr rfl

/-- Witness for C6: the crash state right after the rename step of a
save over an existing record. -/
theorem C6_witness :
    ({ afterBackupStep ⟨some "OLDRECORD".toList, none, none⟩ with
        temp := none, main := some "NEWRECORD".toList } : FsState).main
      = (⟨some "OLDRECORD".toList, none, none⟩ : FsState).main ∨
    ({ afterBackupStep ⟨some "OLDRECORD".toList, none, none⟩ with
        temp := none, main := some "NEWRECORD".toList } : FsState).main
      = some "NEWRECORD".toList :=
  C6_rename_save_atomic ⟨some "OLDRECORD".toList, none, none⟩ "NEWRECORD".toList _
    saveCrash.renamed

/-- C4: evaluation of the lock-file `updateProgressData` protocol at a
concrete interleaving of two concurrent `updateTransferCount("UNION", 1)`
calls for the same wallet.  Under strict alternation both actors pass
the `fs.access` lock check before either creates the lock file, the
unguarded `fs.writeFile` lock creation succeeds for both (no exclusive
flag), both read the same count, and one increment is lost: starting
from count 0, both actors complete but the final persisted count is 1,
not 2.  This contradicts the claim (and the source's own comment, which
assumes lock creation fails when another process created the file
first). -/
theorem C4_lost_update :
    unionCount (runSched (⟨some getDefaultProgressData, false⟩, APC.acq0, APC.acq0)
        lostUpdateSched).1 = some 1 ∧
    (runSched (⟨some getDefaultProgressData, false⟩, APC.acq0, APC.acq0)
        lostUpdateSched).2.1 = APC.doneStep ∧
    (runSched (⟨some getDefaultProgressData, false⟩, APC.acq0, APC.acq0)
        lostUpdateSched).2.2 = APC.doneStep ∧
    (runSched (⟨some getDefaultProgressData, false⟩, APC.acq0, APC.acq0)
        lostUpdateSched).1.lock = false := by
  decide

/-- Context for C4: under a fully sequential interleaving the same two
updates do serialize and the final count is 2 — the loss above is
caused purely by the unserialized lock acquisition. -/
theorem runSched_sequential_no_loss :
    unionCount (runSched (⟨some getDefaultProgressData, false⟩, APC.acq0, APC.acq0)
        sequentialSched).1 = some 2 ∧
    (runSched (⟨some getDefaultProgressData, false⟩, APC.acq0, APC.acq0)
        sequentialSched).2.1 = APC.doneStep ∧
    (runSched (⟨some getDefaultProgressData, false⟩, APC.acq0, APC.acq0)
        sequentialSched).2.2 = APC.doneStep := by
  decide

set_option maxRecDepth 4000 in
/-- C10: in the lock-file variant, for a wallet whose progress file is
missing or unparsable, `updateProgressData` acquires the per-wallet
lock, its inner `readProgressData` then calls `saveProgressData`, which
tries to acquire the same lock the caller already holds; that inner
wait polls until the full `lockTimeout` (10000 ms) elapses, and the
whole update fails with the save path's lock-acquisition error — the
record is neither created nor healed (the file state is unchanged). -/
theorem C10_lock_self_deadlock (updateFn : ProgressData → ProgressData) (fs : PFS)
    (hl : fs.lock = false) (hf : fs.file = FileVal.missing ∨ fs.file = FileVal.corrupt) :
    updateProgressDataLk fs updateFn =
      (⟨fs.file, false⟩, Except.error "Could not acquire lock for saving progress data") ∧
    waitForLockP true = (false, lockTimeout) := by
  constructor
  · obtain ⟨f, l⟩ := fs
    simp only at hl hf
    subst hl
    rcases hf with hf | hf <;> subst hf <;> rfl
  · rfl

/-- Witness for C10: wallet file missing, lock free, identity update. -/
theorem C10_witness :
    updateProgressDataLk ⟨FileVal.missing, false⟩ id =
      (⟨FileVal.missing, false⟩,
       Except.error "Could not acquire lock for saving progress data") ∧
    waitForLockP true = (false, lockTimeout) :=
  C10_lock_self_deadlock id ⟨FileVal.missing, false⟩ rfl (Or.inl rfl)

/-- C8: for both configured chains, whose ordered milestone list is
[1, 10, 25, 50, 250, 500], `determineTransfersNeeded` returns the first
milestone threshold strictly greater than the current count minus the
current count, and 0 once every milestone is reached; in particular 3
at current count 7 and 0 at current count 500. -/
theorem C8_transfers_needed (c : Nat) :
    determineTransfersNeeded "UNION" c = specTransfersNeeded [1, 10, 25, 50, 250, 500] c ∧
    determineTransfersNeeded "BABYLON" c
      = specTransfersNeeded [1, 10, 25, 50, 250, 500] c ∧
    determineTransfersNeeded "UNION" 7 = 3 ∧
    determineTransfersNeeded "BABYLON" 7 = 3 ∧
    determineTransfersNeeded "UNION" 500 = 0 ∧
    determineTransfersNeeded "BABYLON" 500 = 0 := by
  refine ⟨?_, ?_, by decide, by decide, by decide, by decide⟩
  · have h1 : determineTransfersNeeded "UNION" c = transfersNeededLoop TRANSFER_UNION c :=
      rfl
    rw [h1, transfersNeededLoop_eq_spec]
    rfl
  · have h1 : determineTransfersNeeded "BABYLON" c
        = transfersNeededLoop TRANSFER_BABYLON c := rfl
    rw [h1, transfersNeededLoop_eq_spec]
    rfl
